import Mathlib

/-!
A shallow embedding of the `@akwaba/events` cross-browser event module
(`src/event.js`, `src/printable-chars.js`, `src/key-map.js`) together with
proofs about its registration store, wrapper dispatch, pointer arithmetic,
target resolution, synthetic-event construction and keyboard dispatch.

Conventions of the embedding:
* DOM elements and callback functions are identified by natural numbers
  (JavaScript compares callbacks with `===`, i.e. by identity).
* JavaScript objects used as string-keyed dictionaries are association
  lists that keep insertion order and have unique keys (as JS objects do).
* `undefined`/missing fields are `Option.none`; JS truthiness of a number
  is "nonzero", of a string is "nonempty".
-/

/-- Model of JavaScript `String.prototype.toLowerCase` restricted to the
ASCII range (sufficient for every string these modules handle). -/
def jsToLower (s : String) : String :=
  String.mk (s.data.map Char.toLower)

/-- Modelled from the spec: the module `src/is-custom-event.js` is imported
by `src/event.js` but its source is not in the repository. Spec §4.1:
"Returns true iff `name` contains a `:` separator (namespace:verb
convention), false otherwise." -/
def isCustomEvent (name : String) : Bool :=
  name.data.any (fun c => c == ':')

/-- A handler record held in an element's handler store. `createHandler`
sets `handler.callback` to the original callback; `remove` executes
`delete handler.callback`, modelled by `none`. The wrapper function itself
is determined by `(eventName, callback)` and is modelled separately by
`wrapperFires`. -/
structure Handler where
  callback : Option Nat
deriving DecidableEq, Repr

/-- The per-element handler store (`DOM.storage` slot `"events"`): a map
from event name to the ordered array of handler records. -/
abbrev Model := List (String × List Handler)

/-- JS object property assignment `model[k] = v`: replace the value of an
existing key in place, or append a new key (JS insertion order). -/
def storeSet : Model → String → List Handler → Model
  | [], k, v => [(k, v)]
  | (k', v') :: t, k, v =>
    if k' = k then (k, v) :: t else (k', v') :: storeSet t k v

/-- JS `delete model[k]`. -/
def eraseKey : Model → String → Model
  | [], _ => []
  | (k', v') :: t, k =>
    if k' = k then t else (k', v') :: eraseKey t k

/-- The handler array stored for an event name (`model[eventName]`),
defaulting to the empty array when the entry is absent. -/
def lookupHandlers (m : Model) (en : String) : List Handler :=
  (List.lookup en m).getD []

/-- Number of records in a handler array whose original callback is `cb`. -/
def countCbIn (hs : List Handler) (cb : Nat) : Nat :=
  hs.countP (fun h => h.callback == some cb)

/-- Number of records for callback `cb` under event name `en` in store `m`. -/
def countCb (m : Model) (en : String) (cb : Nat) : Nat :=
  countCbIn (lookupHandlers m en) cb

/-- `createHandler` (src/event.js:82-133) acting on the element's handler
store. It ensures the entry for `eventName` exists, then refuses to add a
second record for a callback already present (`Array.contains` over
`handlers.map(h => h.callback)`, returning `false`), and otherwise pushes
a fresh record and reports success. Ensuring the entry is observable only
in the success branch (a duplicate can only be found in a nonempty,
hence already stored, array), so the duplicate branch returns the store
unchanged. -/
def createHandler (m : Model) (en : String) (cb : Nat) : Model × Bool :=
  let handlers := (List.lookup en m).getD []
  if handlers.any (fun h => h.callback == some cb) then
    (m, false)
  else
    (storeSet m en (handlers ++ [{ callback := some cb }]), true)

/-- The wrapper built by `createHandler` (src/event.js:109-127), reduced to
whether it invokes the registered callback on an incoming raw event. A raw
event carries an optional embedded `eventName` field (`Extensions.isUndefined`
is modelled by `Option.none`). For a custom event name the wrapper returns
early unless the embedded name is present and equal; for a native name it
always normalizes and invokes. -/
structure RawEvent where
  eventName : Option String
deriving DecidableEq, Repr

/-- Whether the wrapper for `(eventName, callback)` invokes the callback on
raw event `ev` (src/event.js:109-127). -/
def wrapperFires (en : String) (ev : RawEvent) : Bool :=
  if isCustomEvent en then
    match ev.eventName with
    | none => false
    | some n => n == en
  else
    true

/-- The element argument of `add`: either a string id (resolved through the
external `HTML.getElement` service, modelled as a parameter) or a concrete
element (`Extensions.isString` distinguishes the two). -/
inductive ElemArg where
  | str (s : String)
  | node (n : Nat)
deriving DecidableEq, Repr

/-- `add` (src/event.js:228-257) restricted to the store of the element it
operates on: resolves a string argument, throws
`Invalid element provided for event "..."` when resolution yields nothing,
and otherwise runs `createHandler`. The result carries the resolved
element, the updated store, and whether a new host binding was created
(`false` means `createHandler` returned `false` and `add` returned the
element without registering anything). -/
def add (resolve : String → Option Nat) (store : Model) (arg : ElemArg)
    (en : String) (cb : Nat) : Except String (Nat × Model × Bool) :=
  let el? := match arg with
    | .str s => resolve s
    | .node n => some n
  match el? with
  | none => .error ("Invalid element provided for event \"" ++ en ++ "\"")
  | some el =>
    let r := createHandler store en cb
    .ok (el, r.1, r.2)

/-- The native branch of `remove` (src/event.js:316-325): `handlers.find`
locates the first record whose original callback is `cb`, `indexOf` finds
that same object, and `splice` removes it; `delete handler.callback` then
mutates an object no longer in the array. -/
def removeFirstNative : List Handler → Nat → List Handler
  | [], _ => []
  | h :: t, cb =>
    if h.callback == some cb then t else h :: removeFirstNative t cb

/-- The custom branch of `remove` (src/event.js:309-315, 327): the record
found by `handlers.find` is *not* spliced out of the array, so the
subsequent `delete handler.callback` blanks the record in place. -/
def blankFirst : List Handler → Nat → List Handler
  | [], _ => []
  | h :: t, cb =>
    if h.callback == some cb then { callback := none } :: t
    else h :: blankFirst t cb

/-- `remove(element, eventName, callback)` (src/event.js:268-334, the
branch where both `eventName` and `callback` are supplied) acting on the
element's handler store. No store entry, or no record whose callback is
`cb`, is a no-op. Otherwise: for a native event name the record is spliced
out; for a custom event name it is blanked in place; finally
`delete model[eventName]` runs when the (updated) array is empty. Host
deregistration (`removeEventListener`/`detachEvent`) has no store effect
and is not modelled. -/
def removeCallback (m : Model) (en : String) (cb : Nat) : Model :=
  match List.lookup en m with
  | none => m
  | some handlers =>
    if handlers.any (fun h => h.callback == some cb) then
      let handlers' :=
        if isCustomEvent en then blankFirst handlers cb
        else removeFirstNative handlers cb
      if handlers'.isEmpty then eraseKey m en else storeSet m en handlers'
    else m

/-- Host capabilities consulted by `fire` (src/event.js:347-374). `docId`
is the document, `docElemId` its `documentElement`; `docDispatch` says
whether the document itself exposes `dispatchEvent`. -/
structure Host where
  createEvent : Bool
  createEventObject : Bool
  docDispatch : Bool
  docId : Nat
  docElemId : Nat

/-- The synthetic event constructed by `fire`: the embedded event name, the
`model` payload (a schemaless key-value bag), the legacy `eventType`
channel (`none` on modern hosts), and the element it was dispatched on. -/
structure SynthEvent where
  eventName : String
  model : List (String × String)
  eventType : Option String
  target : Nat
deriving DecidableEq, Repr

/-- `fire` (src/event.js:347-374): substitutes `documentElement` when
firing on a document that supports `createEvent` but not `dispatchEvent`;
builds the event with `createEvent`/`initEvent` on modern hosts or
`createEventObject` (channel chosen by `bubbles`) on legacy hosts; returns
`undefined` — dispatching nothing — when neither primitive exists; and
otherwise stamps the embedded `eventName` and the `model` payload
(defaulting to an empty object) and returns the event. -/
def fire (host : Host) (el : Nat) (en : String)
    (data : Option (List (String × String))) (bubbles : Bool := true) :
    Option SynthEvent :=
  let el := if el = host.docId ∧ host.createEvent ∧ ¬host.docDispatch
    then host.docElemId else el
  if host.createEvent then
    some { eventName := en, model := data.getD [], eventType := none, target := el }
  else if host.createEventObject then
    some { eventName := en, model := data.getD [],
           eventType := some (if bubbles then "ondataavailable" else "onfilterchange"),
           target := el }
  else
    none

/-- An event as consumed by `pointerX`/`pointerY` (src/event.js:171-190):
`pageX`/`pageY` may be absent (`undefined`), `clientX`/`clientY` are
numbers. -/
structure PtrEvent where
  pageX : Option Int
  pageY : Option Int
  clientX : Int
  clientY : Int
deriving DecidableEq, Repr

/-- The document state read by `pointerX`/`pointerY`:
`document.documentElement` scroll offsets, whether `document.body` exists
and its scroll offsets, and the (normally absent) `document.clientLeft` /
`document.clientTop`. -/
structure DocState where
  docScrollLeft : Int
  docScrollTop : Int
  bodyPresent : Bool
  bodyScrollLeft : Int
  bodyScrollTop : Int
  docClientLeft : Option Int
  docClientTop : Option Int
deriving DecidableEq, Repr

/-- JavaScript `a || b` on a possibly-undefined number `a`: `a` when it is
present and nonzero (truthy), otherwise `b`. -/
def orElseInt (a : Option Int) (b : Int) : Int :=
  match a with
  | some v => if v = 0 then b else v
  | none => b

/-- `pointerX` (src/event.js:171-176):
`event.pageX || (event.clientX + (docElem.scrollLeft || body.scrollLeft)
- (document.clientLeft || 0))` where `body` defaults to
`{scrollLeft: 0}` when `document.body` is absent. -/
def pointerX (d : DocState) (e : PtrEvent) : Int :=
  let bodyScroll : Int := if d.bodyPresent then d.bodyScrollLeft else 0
  orElseInt e.pageX
    (e.clientX + orElseInt (some d.docScrollLeft) bodyScroll - orElseInt d.docClientLeft 0)

/-- `pointerY` (src/event.js:185-190), symmetric to `pointerX`. -/
def pointerY (d : DocState) (e : PtrEvent) : Int :=
  let bodyScroll : Int := if d.bodyPresent then d.bodyScrollTop else 0
  orElseInt e.pageY
    (e.clientY + orElseInt (some d.docScrollTop) bodyScroll - orElseInt d.docClientTop 0)

/-- `pointer` (src/event.js:199-202). -/
def pointer (d : DocState) (e : PtrEvent) : Int × Int :=
  (pointerX d e, pointerY d e)

/-- A DOM node as consumed by `element` (src/event.js:145-162): optional
tag name (absent on document/window/text nodes), optional `type` attribute
(for `<input>`), numeric `nodeType`, and optional parent. -/
structure DomNode where
  tagName : Option String
  inputType : Option String
  nodeType : Nat
  parentNode : Option Nat
deriving DecidableEq, Repr

/-- An event as consumed by `element`: its type string, the bubbled target
and the (possibly absent) `currentTarget`. Nodes are identified by ids
resolved through a `Nat → DomNode` environment. -/
structure DomEvent where
  type : String
  target : Nat
  currentTarget : Option Nat
deriving DecidableEq, Repr

/-- The quirk-correction step of `element` (src/event.js:146-155): when
`currentTarget` exists and has a truthy `tagName`, a `load`/`error` event
or a `click` on a radio `<input>` resolves to `currentTarget` instead of
the bubbled target. -/
def quirkTarget (nodes : Nat → DomNode) (ev : DomEvent) : Nat :=
  match ev.currentTarget with
  | some ct =>
    match (nodes ct).tagName with
    | some tag =>
      if tag ≠ "" ∧ (ev.type = "load" ∨ ev.type = "error" ∨
          (ev.type = "click" ∧ jsToLower tag = "input" ∧
            (nodes ct).inputType = some "radio"))
      then ct else ev.target
    | none => ev.target
  | none => ev.target

/-- `element` (src/event.js:145-162): quirk correction followed by the
text-node walk (`HTML.nodeType.TEXT_NODE` is the standard DOM constant 3);
a text node resolves to its `parentNode` (which JS may report as `null`,
hence the `Option`). -/
def domElement (nodes : Nat → DomNode) (ev : DomEvent) : Option Nat :=
  let node := quirkTarget nodes ev
  if (nodes node).nodeType = 3 then (nodes node).parentNode else some node

/-- The key-code → key-name table `src/printable-chars.js`. -/
def PrintableChars (code : Nat) : Option String :=
  match code with
  | 8 => some "backspace"
  | 9 => some "tab"
  | 13 => some "return"
  | 19 => some "pause"
  | 27 => some "escape"
  | 32 => some "space"
  | 33 => some "pageup"
  | 34 => some "pagedown"
  | 36 => some "home"
  | 37 => some "left"
  | 38 => some "up"
  | 39 => some "right"
  | 40 => some "down"
  | 44 => some "printscreen"
  | 45 => some "insert"
  | 46 => some "delete"
  | 112 => some "f1"
  | 113 => some "f2"
  | 114 => some "f3"
  | 115 => some "f4"
  | 116 => some "f5"
  | 117 => some "f6"
  | 118 => some "f7"
  | 119 => some "f8"
  | 120 => some "f9"
  | 121 => some "f10"
  | 122 => some "f11"
  | 123 => some "f12"
  | 144 => some "numlock"
  | 145 => some "scrolllock"
  | _ => none

/-- A raw keyboard event as consumed by `KeyMap.dispatch`
(src/key-map.js:41-121). `charCode` may be `undefined` (key-down events,
old browsers). -/
structure KeyEvent where
  type : String
  keyCode : Nat
  charCode : Option Nat
  altKey : Bool
  ctrlKey : Bool
  shiftKey : Bool
deriving DecidableEq, Repr

/-- `e.charCode || e.keyCode` from the key-press branch. -/
def derivedCode (e : KeyEvent) : Nat :=
  match e.charCode with
  | some n => if n = 0 then e.keyCode else n
  | none => e.keyCode

/-- The modifier chain composed on key-down: alt, then ctrl, then shift,
in that fixed order. -/
def modsFor (e : KeyEvent) : String :=
  (if e.altKey then "alt_" else "") ++
    (if e.ctrlKey then "ctrl_" else "") ++
      (if e.shiftKey then "shift_" else "")

/-- The composite key computed by `KeyMap.dispatch` before the binding-map
lookup (src/key-map.js:41-99), or `none` when dispatch returns early
without looking anything up. Key-down: modifier-only codes (16/17/18) are
ignored; the name comes from `PrintableChars` (with the redundant
re-lookup of the same table when alt/ctrl are held); a nameless code is
ignored; otherwise the modifier chain is prepended. Key-press: alt/ctrl
events and explicit `charCode === 0` events are ignored; the character is
derived from `charCode || keyCode`; a character differing from its
lowercase form is lowercased and given a forced `shift_` chain. Any other
event type reaches the lookup with the template string
`modifiers + null`, i.e. the literal key `"null"`. -/
def composedKey (e : KeyEvent) : Option String :=
  if e.type = "keydown" then
    if e.keyCode = 16 ∨ e.keyCode = 17 ∨ e.keyCode = 18 then none
    else
      let keyname := PrintableChars e.keyCode
      let keyname := if keyname.isNone ∧ (e.altKey ∨ e.ctrlKey)
        then PrintableChars e.keyCode else keyname
      match keyname with
      | some name => some (modsFor e ++ name)
      | none => none
  else if e.type = "keypress" then
    if e.altKey ∨ e.ctrlKey then none
    else if e.charCode = some 0 then none
    else
      let keyname := String.mk [Char.ofNat (derivedCode e)]
      let lower := jsToLower keyname
      if keyname ≠ lower then some ("shift_" ++ lower) else some keyname
  else
    some "null"

/-- A `KeyMap`'s binding map: JS object from composite key name to handler
function (functions identified by `Nat`). -/
abbrev KMap := List (String × Nat)

/-- JS object assignment `map[k] = v`. -/
def kmapSet : KMap → String → Nat → KMap
  | [], k, v => [(k, v)]
  | (k', v') :: t, k, v =>
    if k' = k then (k, v) :: t else (k', v') :: kmapSet t k v

/-- JS `delete map[k]`. -/
def kmapDelete : KMap → String → KMap
  | [], _ => []
  | (k', v') :: t, k =>
    if k' = k then t else (k', v') :: kmapDelete t k

/-- The `KeyMap` constructor (src/key-map.js:5-13): lowercases every
binding name it is given. -/
def keymapOf (bindings : List (String × Nat)) : KMap :=
  bindings.foldl (fun m p => kmapSet m (jsToLower p.1) p.2) []

/-- `KeyMap.bind` (src/key-map.js:15-17). -/
def keymapBind (m : KMap) (k : String) (f : Nat) : KMap :=
  kmapSet m (jsToLower k) f

/-- `KeyMap.unbind` (src/key-map.js:19-25): lowercases the key, deletes
it only when present (handler functions are always truthy). -/
def keymapUnbind (m : KMap) (k : String) : KMap :=
  let k' := jsToLower k
  if (List.lookup k' m).isSome then kmapDelete m k' else m

/-- A mutation of a `KeyMap` after construction. -/
inductive KeyOp where
  | bindKey (k : String) (f : Nat)
  | unbindKey (k : String)

/-- Run one `bind`/`unbind` call. -/
def applyKeyOp (m : KMap) : KeyOp → KMap
  | .bindKey k f => keymapBind m k f
  | .unbindKey k => keymapUnbind m k

/-- Run a sequence of `bind`/`unbind` calls. -/
def applyKeyOps (m : KMap) (ops : List KeyOp) : KMap :=
  ops.foldl applyKeyOp m

/-- `KeyMap.dispatch` (src/key-map.js:41-121), reduced to which binding is
invoked: the composite key is computed, looked up in the binding map, and
the bound function is called with that composite key (the event is then
suppressed); `none` means no handler is invoked and the event passes
through. -/
def dispatch (m : KMap) (e : KeyEvent) : Option (String × Nat) :=
  match composedKey e with
  | none => none
  | some key =>
    match List.lookup key m with
    | none => none
    | some f => some (key, f)

/-- `true` when no character of `s` is an ASCII uppercase letter. -/
def noUpperB (s : String) : Bool :=
  s.data.all (fun c => !c.isUpper)

/-- Every key of a binding map is free of ASCII uppercase letters. -/
def KMapLower (m : KMap) : Prop :=
  ∀ p ∈ m, noUpperB p.1 = true

/-! Concrete instances used to evaluate the theorems below on explicit
inputs. -/

/-- An element-resolution service knowing only the id `"navigation"`. -/
def res0 (s : String) : Option Nat :=
  if s = "navigation" then some 7 else none

/-- A raw event whose embedded name matches `"login:request"`. -/
def rvMatch : RawEvent := { eventName := some "login:request" }

/-- A raw event carrying a different embedded name. -/
def rvOther : RawEvent := { eventName := some "signup:done" }

/-- A raw event with no embedded name at all. -/
def rvNone : RawEvent := { eventName := none }

/-- A key-press producing uppercase `L` (caps-lock), no modifiers. -/
def eCapsL : KeyEvent :=
  { type := "keypress", keyCode := 76, charCode := some 76,
    altKey := false, ctrlKey := false, shiftKey := false }

/-- A key-down of `F1` with ctrl and shift held. -/
def eCtrlShiftF1 : KeyEvent :=
  { type := "keydown", keyCode := 112, charCode := none,
    altKey := false, ctrlKey := true, shiftKey := true }

/-- A key-down of the Shift key itself (code 16). -/
def eShiftDown : KeyEvent :=
  { type := "keydown", keyCode := 16, charCode := none,
    altKey := false, ctrlKey := false, shiftKey := true }

/-- An unscrolled document with a body and no `document.clientLeft`. -/
def dFlat : DocState :=
  { docScrollLeft := 0, docScrollTop := 0, bodyPresent := true,
    bodyScrollLeft := 0, bodyScrollTop := 0,
    docClientLeft := none, docClientTop := none }

/-- A pointer event at the page origin: `pageX`/`pageY` are present and
equal to `0`, while the client coordinates are `(7, 9)`. -/
def ptrEdge : PtrEvent :=
  { pageX := some 0, pageY := some 0, clientX := 7, clientY := 9 }

/-- A pointer event with explicit nonzero page coordinates. -/
def ptrPage : PtrEvent :=
  { pageX := some 11, pageY := some 13, clientX := 7, clientY := 9 }

/-- A host with neither `createEvent` nor `createEventObject`. -/
def hostNone : Host :=
  { createEvent := false, createEventObject := false, docDispatch := true,
    docId := 0, docElemId := 1 }

/-- A modern host exposing `createEvent` and document dispatch. -/
def hostModern : Host :=
  { createEvent := true, createEventObject := false, docDispatch := true,
    docId := 0, docElemId := 1 }

/-- The payload of the spec's `"login:request"` example. -/
def payload0 : List (String × String) := [("username", "hsimpson")]

/-- A node environment: node 0 is the document (no tag name), node 1 an
image element, node 2 a text node with parent 1. -/
def nodes0 (n : Nat) : DomNode :=
  if n = 1 then
    { tagName := some "IMG", inputType := none, nodeType := 1, parentNode := some 0 }
  else if n = 2 then
    { tagName := none, inputType := none, nodeType := 3, parentNode := some 1 }
  else
    { tagName := none, inputType := none, nodeType := 9, parentNode := none }

/-- A `load` event bubbled up from node 1 whose listener sits on the
document (node 0, which has no tag name). -/
def evLoadDoc : DomEvent :=
  { type := "load", target := 1, currentTarget := some 0 }

/-- A `load` event on the image: listener attached to node 1, bubbled
target node 0. -/
def evLoadImg : DomEvent :=
  { type := "load", target := 0, currentTarget := some 1 }

/-- A plain `click` whose bubbled target is the text node 2 (the Safari
anchor-text-node quirk); the listener sits on element node 1. -/
def evClickText : DomEvent :=
  { type := "click", target := 2, currentTarget := some 1 }

/-! ### General lemmas about the embedding -/

theorem uint32_le_iff_toNat_le (a b : UInt32) : a ≤ b ↔ a.toNat ≤ b.toNat := by
  rw [UInt32.le_def, BitVec.le_def]
  exact Iff.rfl

theorem char_isUpper_iff (d : Char) : d.isUpper = true ↔ 65 ≤ d.toNat ∧ d.toNat ≤ 90 := by
  simp only [Char.isUpper, Bool.and_eq_true, decide_eq_true_eq, ge_iff_le]
  constructor
  · rintro ⟨h1, h2⟩
    exact ⟨(uint32_le_iff_toNat_le _ _).1 h1, (uint32_le_iff_toNat_le _ _).1 h2⟩
  · rintro ⟨h1, h2⟩
    exact ⟨(uint32_le_iff_toNat_le _ _).2 h1, (uint32_le_iff_toNat_le _ _).2 h2⟩

theorem char_ofNat_toNat (m : Nat) (h : m < 55296) : (Char.ofNat m).toNat = m := by
  rw [Char.ofNat, dif_pos (Or.inl h)]
  rfl

theorem toLower_isUpper_false (c : Char) : (Char.toLower c).isUpper = false := by
  rw [Char.toLower]
  split
  · rename_i h
    rw [Bool.eq_false_iff]
    intro hu
    have hle := (char_isUpper_iff _).1 hu
    rw [char_ofNat_toNat (c.toNat + 32) (by omega)] at hle
    omega
  · rename_i h
    rw [Bool.eq_false_iff]
    intro hu
    exact h ((char_isUpper_iff _).1 hu)

theorem noUpperB_jsToLower (s : String) : noUpperB (jsToLower s) = true := by
  simp only [noUpperB, jsToLower, List.all_eq_true, List.mem_map]
  rintro c ⟨a, _, rfl⟩
  simp [toLower_isUpper_false]

theorem mem_kmapSet {m : KMap} {k : String} {v : Nat} {p : String × Nat}
    (h : p ∈ kmapSet m k v) : p = (k, v) ∨ p ∈ m := by
  induction m with
  | nil =>
    simp only [kmapSet, List.mem_singleton] at h
    exact Or.inl h
  | cons q t ih =>
    obtain ⟨k', v'⟩ := q
    simp only [kmapSet] at h
    split at h
    · rcases List.mem_cons.1 h with h1 | h1
      · exact Or.inl h1
      · exact Or.inr (List.mem_cons_of_mem _ h1)
    · rcases List.mem_cons.1 h with h1 | h1
      · exact Or.inr (h1 ▸ List.mem_cons_self _ _)
      · rcases ih h1 with h2 | h2
        · exact Or.inl h2
        · exact Or.inr (List.mem_cons_of_mem _ h2)

theorem mem_kmapDelete {m : KMap} {k : String} {p : String × Nat}
    (h : p ∈ kmapDelete m k) : p ∈ m := by
  induction m with
  | nil => simp [kmapDelete] at h
  | cons q t ih =>
    obtain ⟨k', v'⟩ := q
    simp only [kmapDelete] at h
    split at h
    · exact List.mem_cons_of_mem _ h
    · rcases List.mem_cons.1 h with h1 | h1
      · exact h1 ▸ List.mem_cons_self _ _
      · exact List.mem_cons_of_mem _ (ih h1)

theorem kmaplower_set {m : KMap} {k : String} {v : Nat}
    (hm : KMapLower m) (hk : noUpperB k = true) : KMapLower (kmapSet m k v) := by
  intro p hp
  rcases mem_kmapSet hp with rfl | hp'
  · exact hk
  · exact hm p hp'

theorem kmaplower_bind {m : KMap} {k : String} {v : Nat}
    (hm : KMapLower m) : KMapLower (keymapBind m k v) :=
  kmaplower_set hm (noUpperB_jsToLower k)

theorem kmaplower_unbind {m : KMap} {k : String}
    (hm : KMapLower m) : KMapLower (keymapUnbind m k) := by
  show KMapLower (if (List.lookup (jsToLower k) m).isSome then kmapDelete m (jsToLower k) else m)
  split
  · exact fun p hp => hm p (mem_kmapDelete hp)
  · exact hm

theorem kmaplower_applyKeyOps {m : KMap} (hm : KMapLower m) (ops : List KeyOp) :
    KMapLower (applyKeyOps m ops) := by
  induction ops generalizing m with
  | nil => exact hm
  | cons op t ih =>
    cases op with
    | bindKey k f => exact ih (kmaplower_bind hm)
    | unbindKey k => exact ih (kmaplower_unbind hm)

theorem kmaplower_keymapOf (bindings : List (String × Nat)) :
    KMapLower (keymapOf bindings) := by
  have h : ∀ (bs : List (String × Nat)) (acc : KMap), KMapLower acc →
      KMapLower (bs.foldl (fun m p => kmapSet m (jsToLower p.1) p.2) acc) := by
    intro bs
    induction bs with
    | nil => exact fun acc h => h
    | cons b t ih =>
      intro acc hacc
      exact ih _ (kmaplower_set hacc (noUpperB_jsToLower b.1))
  exact h bindings [] (fun p hp => absurd hp (List.not_mem_nil p))

/-- C10: every key in a KeyMap's binding map is a lowercase string: the
constructor lowercases every binding name it is given, `bind` lowercases
the key before storing, and `unbind` lowercases the key before deleting,
so after any sequence of constructor/bind/unbind operations no map key
contains an (ASCII) uppercase character — lookups during dispatch are
case-insensitive with respect to how the bindings were supplied. -/
theorem keymap_keys_lowercase (bindings : List (String × Nat)) (ops : List KeyOp) :
    ∀ p ∈ applyKeyOps (keymapOf bindings) ops, noUpperB p.1 = true :=
  kmaplower_applyKeyOps (kmaplower_keymapOf bindings) ops

/-- Witness for C10: constructing a KeyMap from the binding name
`"Ctrl_X"` and then binding `"L"` leaves only lowercase keys; the key
`"ctrl_x"` is one of them. -/
theorem keymap_keys_lowercase_witness : noUpperB "ctrl_x" = true :=
  keymap_keys_lowercase [("Ctrl_X", 2)] [.bindKey "L" 5] ("ctrl_x", 2) (by decide)

theorem lookup_storeSet_self (m : Model) (k : String) (v : List Handler) :
    List.lookup k (storeSet m k v) = some v := by
  induction m with
  | nil => simp [storeSet, List.lookup_cons]
  | cons q t ih =>
    obtain ⟨k', v'⟩ := q
    by_cases h : k' = k
    · subst h
      simp [storeSet, List.lookup_cons]
    · simp only [storeSet, h, if_false]
      simp [List.lookup_cons, beq_eq_false_iff_ne.2 (Ne.symm h), ih]

theorem lookup_storeSet_ne (m : Model) {k k' : String} (v : List Handler)
    (h : k' ≠ k) : List.lookup k' (storeSet m k v) = List.lookup k' m := by
  induction m with
  | nil => simp [storeSet, List.lookup_cons, beq_eq_false_iff_ne.2 h]
  | cons q t ih =>
    obtain ⟨k0, v0⟩ := q
    by_cases h0 : k0 = k
    · subst h0
      simp [storeSet, List.lookup_cons, beq_eq_false_iff_ne.2 h]
    · simp only [storeSet, h0, if_false]
      simp only [List.lookup_cons]
      cases hbe : k' == k0
      · exact ih
      · rfl

theorem lookup_eq_none_of_not_mem {m : Model} {k : String}
    (h : k ∉ m.map Prod.fst) : List.lookup k m = none := by
  induction m with
  | nil => rfl
  | cons q t ih =>
    obtain ⟨k0, v0⟩ := q
    simp only [List.map_cons, List.mem_cons, not_or] at h
    simp [List.lookup_cons, beq_eq_false_iff_ne.2 h.1, ih h.2]

theorem lookup_eraseKey_self {m : Model} {k : String}
    (hnd : (m.map Prod.fst).Nodup) : List.lookup k (eraseKey m k) = none := by
  induction m with
  | nil => rfl
  | cons q t ih =>
    obtain ⟨k0, v0⟩ := q
    simp only [List.map_cons, List.nodup_cons] at hnd
    by_cases h0 : k0 = k
    · subst h0
      simp only [eraseKey, if_true]
      exact lookup_eq_none_of_not_mem hnd.1
    · simp only [eraseKey, h0, if_false]
      simp [List.lookup_cons, beq_eq_false_iff_ne.2 (fun he => h0 he.symm), ih hnd.2]

theorem lookup_eraseKey_ne (m : Model) {k k' : String}
    (h : k' ≠ k) : List.lookup k' (eraseKey m k) = List.lookup k' m := by
  induction m with
  | nil => rfl
  | cons q t ih =>
    obtain ⟨k0, v0⟩ := q
    by_cases h0 : k0 = k
    · subst h0
      rw [eraseKey, if_pos rfl]
      simp [List.lookup_cons, beq_eq_false_iff_ne.2 h]
    · rw [eraseKey, if_neg h0]
      simp only [List.lookup_cons]
      cases hbe : k' == k0
      · exact ih
      · rfl

theorem countCbIn_pos_of_any {hs : List Handler} {cb : Nat}
    (h : hs.any (fun h => h.callback == some cb) = true) : 0 < countCbIn hs cb := by
  obtain ⟨x, hx, hpx⟩ := List.any_eq_true.1 h
  exact (List.countP_pos_iff (p := fun h => h.callback == some cb)).2 ⟨x, hx, hpx⟩

theorem any_of_countCbIn_zero {hs : List Handler} {cb : Nat}
    (h : countCbIn hs cb = 0) : hs.any (fun h => h.callback == some cb) = false := by
  rw [← Bool.not_eq_true, List.any_eq_true]
  rintro ⟨x, hx, hpx⟩
  have := (List.countP_pos_iff (p := fun h => h.callback == some cb)).2 ⟨x, hx, hpx⟩
  rw [countCbIn] at h
  omega

/-- C1: registering the same callback a second time for the same
(element, eventName) pair via `add` is a no-op: starting from a store with
no record for `cb` under `en`, the first `add` creates exactly one handler
record for `cb` (each record is one host registration of the wrapper, so a
firing invokes the callback exactly once), and the second `add` with the
same arguments returns the element with the store unchanged and no new
binding created. -/
theorem add_same_callback_twice_idempotent (resolve : String → Option Nat)
    (m : Model) (el : Nat) (en : String) (cb : Nat)
    (h0 : countCb m en cb = 0) :
    ∃ m1, add resolve m (.node el) en cb = .ok (el, m1, true) ∧
      countCb m1 en cb = 1 ∧
      add resolve m1 (.node el) en cb = .ok (el, m1, false) := by
  have h0' : countCbIn ((List.lookup en m).getD []) cb = 0 := h0
  have hany := any_of_countCbIn_zero h0'
  refine ⟨storeSet m en (((List.lookup en m).getD []) ++ [{ callback := some cb }]),
    ?_, ?_, ?_⟩
  · simp [add, createHandler, hany]
  · show countCbIn (lookupHandlers _ en) cb = 1
    rw [lookupHandlers, lookup_storeSet_self]
    rw [Option.getD_some, countCbIn, List.countP_append]
    rw [countCbIn] at h0'
    rw [h0']
    simp [List.countP_cons]
  · have hlk : List.lookup en (storeSet m en (((List.lookup en m).getD [])
        ++ [{ callback := some cb }])) = some (((List.lookup en m).getD [])
        ++ [{ callback := some cb }]) := lookup_storeSet_self _ _ _
    simp [add, createHandler, hlk]

/-- Witness for C1: adding callback 5 for `"click"` twice on element 7
starting from an empty store. -/
theorem add_same_callback_twice_idempotent_witness :
    countCb ([] : Model) "click" 5 = 0 ∧
    ∃ m1, add res0 ([] : Model) (.node 7) "click" 5 = .ok (7, m1, true) ∧
      countCb m1 "click" 5 = 1 ∧
      add res0 m1 (.node 7) "click" 5 = .ok (7, m1, false) :=
  ⟨by decide, add_same_callback_twice_idempotent res0 [] 7 "click" 5 (by decide)⟩

/-- C7: when `add` is passed a string element identifier, failed external
resolution raises an error immediately (no handler is registered, no store
is returned); successful resolution makes `add` proceed with, and return,
the resolved element. -/
theorem add_string_resolution_spec (resolve : String → Option Nat)
    (m : Model) (s en : String) (cb : Nat) :
    (resolve s = none →
      add resolve m (.str s) en cb =
        .error ("Invalid element provided for event \"" ++ en ++ "\"")) ∧
    (∀ el, resolve s = some el →
      add resolve m (.str s) en cb =
        .ok (el, (createHandler m en cb).1, (createHandler m en cb).2)) := by
  constructor
  · intro h
    simp [add, h]
  · intro el h
    simp [add, h]

/-- Witness for C7: the resolver `res0` knows `"navigation"` but not
`"missing"`. -/
theorem add_string_resolution_spec_witness :
    add res0 ([] : Model) (.str "missing") "click" 1 =
      .error "Invalid element provided for event \"click\"" ∧
    add res0 ([] : Model) (.str "navigation") "click" 1 =
      .ok (7, (createHandler [] "click" 1).1, (createHandler [] "click" 1).2) :=
  ⟨(add_string_resolution_spec res0 [] "missing" "click" 1).1 (by decide),
   (add_string_resolution_spec res0 [] "navigation" "click" 1).2 7 (by decide)⟩

theorem length_pos_of_any {hs : List Handler} {cb : Nat}
    (h : hs.any (fun h => h.callback == some cb) = true) : 0 < hs.length := by
  obtain ⟨x, hx, _⟩ := List.any_eq_true.1 h
  exact List.length_pos.2 (List.ne_nil_of_mem hx)

theorem removeFirstNative_length {hs : List Handler} {cb : Nat}
    (h : hs.any (fun h => h.callback == some cb) = true) :
    (removeFirstNative hs cb).length = hs.length - 1 := by
  induction hs with
  | nil => simp at h
  | cons x t ih =>
    by_cases hp : (x.callback == some cb) = true
    · simp [removeFirstNative, hp]
    · simp only [List.any_cons, Bool.or_eq_true] at h
      rcases h with h | h
      · exact absurd h hp
      · have hlp := length_pos_of_any h
        have ih' := ih h
        simp only [removeFirstNative]
        rw [if_neg hp]
        simp only [List.length_cons, ih']
        omega

theorem removeFirstNative_countP_self {hs : List Handler} {cb : Nat}
    (h : hs.any (fun h => h.callback == some cb) = true) :
    countCbIn (removeFirstNative hs cb) cb = countCbIn hs cb - 1 := by
  induction hs with
  | nil => simp at h
  | cons x t ih =>
    by_cases hp : (x.callback == some cb) = true
    · simp [removeFirstNative, hp, countCbIn, List.countP_cons]
    · simp only [List.any_cons, Bool.or_eq_true] at h
      rcases h with h | h
      · exact absurd h hp
      · have hpos := countCbIn_pos_of_any h
        have ih' := ih h
        simp only [countCbIn] at ih' hpos ⊢
        simp only [removeFirstNative]
        rw [if_neg hp]
        simp only [List.countP_cons, if_neg hp]
        omega

theorem removeFirstNative_countP_other {hs : List Handler} {cb cb' : Nat}
    (hne : cb' ≠ cb) :
    countCbIn (removeFirstNative hs cb) cb' = countCbIn hs cb' := by
  induction hs with
  | nil => rfl
  | cons x t ih =>
    by_cases hp : (x.callback == some cb) = true
    · have hq : (x.callback == some cb') = false := by
        rw [beq_iff_eq] at hp
        rw [beq_eq_false_iff_ne, hp]
        intro hc
        exact hne (Option.some_injective _ hc).symm
      simp [removeFirstNative, hp, countCbIn, List.countP_cons, hq]
    · have ih' := ih
      simp only [countCbIn] at ih' ⊢
      simp only [removeFirstNative]
      rw [if_neg hp]
      simp only [List.countP_cons, ih']

theorem blankFirst_length (hs : List Handler) (cb : Nat) :
    (blankFirst hs cb).length = hs.length := by
  induction hs with
  | nil => rfl
  | cons x t ih =>
    by_cases hp : (x.callback == some cb) = true
    · simp [blankFirst, hp]
    · simp only [blankFirst]
      rw [if_neg hp]
      simp [ih]

theorem blankFirst_countP_self {hs : List Handler} {cb : Nat}
    (h : hs.any (fun h => h.callback == some cb) = true) :
    countCbIn (blankFirst hs cb) cb = countCbIn hs cb - 1 := by
  induction hs with
  | nil => simp at h
  | cons x t ih =>
    by_cases hp : (x.callback == some cb) = true
    · simp [blankFirst, hp, countCbIn, List.countP_cons]
    · simp only [List.any_cons, Bool.or_eq_true] at h
      rcases h with h | h
      · exact absurd h hp
      · have hpos := countCbIn_pos_of_any h
        have ih' := ih h
        simp only [countCbIn] at ih' hpos ⊢
        simp only [blankFirst]
        rw [if_neg hp]
        simp only [List.countP_cons, if_neg hp]
        omega

theorem blankFirst_countP_other {hs : List Handler} {cb cb' : Nat}
    (hne : cb' ≠ cb) :
    countCbIn (blankFirst hs cb) cb' = countCbIn hs cb' := by
  induction hs with
  | nil => rfl
  | cons x t ih =>
    by_cases hp : (x.callback == some cb) = true
    · have hq : (x.callback == some cb') = false := by
        rw [beq_iff_eq] at hp
        rw [beq_eq_false_iff_ne, hp]
        intro hc
        exact hne (Option.some_injective _ hc).symm
      have hq0 : ((Handler.mk none).callback == some cb') = false := by
        rw [beq_eq_false_iff_ne]
        intro hc
        exact Option.noConfusion hc
      simp [blankFirst, hp, countCbIn, List.countP_cons, hq, hq0]
    · have ih' := ih
      simp only [countCbIn] at ih' ⊢
      simp only [blankFirst]
      rw [if_neg hp]
      simp only [List.countP_cons, ih']

/-- Counterexample to C2 as stated: for the custom event name `"a:b"`
(it contains `:`), removing the single registered callback does *not*
remove its record from the handler sequence and does *not* delete the
event name's entry — the record survives with its callback reference
deleted, because `remove` only splices the array in the native-event
branch (src/event.js:316-325). -/
theorem remove_custom_record_not_removed :
    isCustomEvent "a:b" = true ∧
    removeCallback [("a:b", [{ callback := some 1 }])] "a:b" 1 =
      [("a:b", [{ callback := none }])] ∧
    List.lookup "a:b" (removeCallback [("a:b", [{ callback := some 1 }])] "a:b" 1) ≠ none ∧
    (lookupHandlers (removeCallback [("a:b", [{ callback := some 1 }])] "a:b" 1) "a:b").length = 1 := by
  refine ⟨by decide, by decide, by decide, by decide⟩

/-- C2 (amended): if the element's handler store maps `eventName` to a
sequence containing a record whose original callback equals `callback`
(matched by original callback identity, not wrapper identity), then
`remove(element, eventName, callback)` removes exactly one record's worth
of that callback — records for other callbacks under the same event name,
and entries for other event names, are left in place — but the record
itself leaves the sequence only for native event names: for a native
`eventName` the record is spliced out and the entry is deleted exactly
when the sequence becomes empty, while for a custom `eventName` the
matched record remains in the sequence with its stored callback reference
deleted, so the entry is never deleted by this call. -/
theorem remove_matching_callback_spec (m : Model) (en : String) (cb : Nat)
    (hs : List Handler)
    (hnd : (m.map Prod.fst).Nodup)
    (hl : List.lookup en m = some hs)
    (hmem : hs.any (fun h => h.callback == some cb) = true) :
    countCb (removeCallback m en cb) en cb = countCbIn hs cb - 1 ∧
    (∀ cb', cb' ≠ cb →
      countCb (removeCallback m en cb) en cb' = countCbIn hs cb') ∧
    (∀ en', en' ≠ en →
      List.lookup en' (removeCallback m en cb) = List.lookup en' m) ∧
    (isCustomEvent en = false →
      (lookupHandlers (removeCallback m en cb) en).length = hs.length - 1 ∧
      (List.lookup en (removeCallback m en cb) = none ↔ hs.length = 1)) ∧
    (isCustomEvent en = true →
      List.lookup en (removeCallback m en cb) = some (blankFirst hs cb) ∧
      (blankFirst hs cb).length = hs.length) := by
  have hcount := countCbIn_pos_of_any hmem
  have hlen := length_pos_of_any hmem
  by_cases hc : isCustomEvent en = true
  · have hbl := blankFirst_length hs cb
    have hbne : (blankFirst hs cb).isEmpty = false := by
      rw [← Bool.not_eq_true, List.isEmpty_iff]
      intro he
      rw [he] at hbl
      simp at hbl
      omega
    have hrc : removeCallback m en cb = storeSet m en (blankFirst hs cb) := by
      simp only [removeCallback, hl, hmem, if_true, hc, hbne, Bool.false_eq_true, if_false]
    refine ⟨?_, ?_, ?_, ?_, ?_⟩
    · rw [hrc, countCb, lookupHandlers, lookup_storeSet_self, Option.getD_some]
      exact blankFirst_countP_self hmem
    · intro cb' hne
      rw [hrc, countCb, lookupHandlers, lookup_storeSet_self, Option.getD_some]
      exact blankFirst_countP_other hne
    · intro en' hne
      rw [hrc]
      exact lookup_storeSet_ne m _ hne
    · intro hfalse
      rw [hfalse] at hc
      exact absurd hc Bool.false_ne_true
    · intro _
      rw [hrc]
      exact ⟨lookup_storeSet_self m en _, hbl⟩
  · have hcf : isCustomEvent en = false := by rwa [Bool.not_eq_true] at hc
    have hrl := removeFirstNative_length hmem
    cases hre : (removeFirstNative hs cb).isEmpty with
    | true =>
      have hrnil : removeFirstNative hs cb = [] := List.isEmpty_iff.1 hre
      have hlen1 : hs.length = 1 := by
        rw [hrnil] at hrl
        simp only [List.length_nil] at hrl
        omega
      have hrc : removeCallback m en cb = eraseKey m en := by
        simp only [removeCallback, hl, hmem, if_true, hcf, Bool.false_eq_true, if_false, hre]
      have hlknone : List.lookup en (removeCallback m en cb) = none := by
        rw [hrc]
        exact lookup_eraseKey_self hnd
      have hcount1 : countCbIn hs cb = 1 := by
        have hle := List.countP_le_length (p := fun h => h.callback == some cb) (l := hs)
        rw [countCbIn] at hcount ⊢
        omega
      refine ⟨?_, ?_, ?_, ?_, ?_⟩
      · rw [countCb, lookupHandlers, hlknone, Option.getD_none, hcount1]
        rfl
      · intro cb' hne
        have hother := @removeFirstNative_countP_other hs cb cb' hne
        rw [hrnil] at hother
        rw [countCb, lookupHandlers, hlknone, Option.getD_none, ← hother]
      · intro en' hne
        rw [hrc]
        exact lookup_eraseKey_ne m hne
      · intro _
        refine ⟨?_, by simp [hlknone, hlen1]⟩
        rw [lookupHandlers, hlknone, Option.getD_none, hlen1]
        rfl
      · intro htrue
        rw [htrue] at hcf
        exact absurd hcf.symm Bool.false_ne_true
    | false =>
      have hrnn : removeFirstNative hs cb ≠ [] := by
        intro he
        have hcontra := List.isEmpty_iff.2 he
        rw [hre] at hcontra
        cases hcontra
      have hrc : removeCallback m en cb = storeSet m en (removeFirstNative hs cb) := by
        simp only [removeCallback, hl, hmem, if_true, hcf, Bool.false_eq_true, if_false, hre]
      refine ⟨?_, ?_, ?_, ?_, ?_⟩
      · rw [hrc, countCb, lookupHandlers, lookup_storeSet_self, Option.getD_some]
        exact removeFirstNative_countP_self hmem
      · intro cb' hne
        rw [hrc, countCb, lookupHandlers, lookup_storeSet_self, Option.getD_some]
        exact removeFirstNative_countP_other hne
      · intro en' hne
        rw [hrc]
        exact lookup_storeSet_ne m _ hne
      · intro _
        constructor
        · rw [hrc, lookupHandlers, lookup_storeSet_self, Option.getD_some]
          exact hrl
        · rw [hrc]
          constructor
          · intro hcontra
            rw [lookup_storeSet_self] at hcontra
            cases hcontra
          · intro hlen1
            rw [hlen1] at hrl
            simp only [Nat.sub_self] at hrl
            exact absurd (List.length_eq_zero.1 hrl) hrnn
      · intro htrue
        rw [htrue] at hcf
        exact absurd hcf.symm Bool.false_ne_true

/-- Witness for C2 (amended): removing callback 1 from a native `"click"`
entry holding callbacks 1 and 2 leaves no record for 1 and exactly one
record for 2. -/
theorem remove_matching_callback_spec_witness :
    countCb (removeCallback [("click", [{ callback := some 1 }, { callback := some 2 }])]
      "click" 1) "click" 1 = 0 ∧
    countCb (removeCallback [("click", [{ callback := some 1 }, { callback := some 2 }])]
      "click" 1) "click" 2 = 1 := by
  have h := remove_matching_callback_spec
    [("click", [{ callback := some 1 }, { callback := some 2 }])] "click" 1
    [{ callback := some 1 }, { callback := some 2 }] (by decide) (by decide) (by decide)
  exact ⟨h.1.trans (by decide), (h.2.1 2 (by decide)).trans (by decide)⟩

/-- C3: the wrapper built by `add` for a custom event name (one containing
`:`) invokes the registered callback on an incoming raw event iff the raw
event carries an embedded `eventName` equal to the registered name — an
absent or different embedded name makes the wrapper return without
invoking — while for a native event name the wrapper always normalizes and
invokes. -/
theorem wrapper_custom_native_invocation (en : String) (ev : RawEvent) :
    (isCustomEvent en = true →
      (wrapperFires en ev = true ↔ ev.eventName = some en)) ∧
    (isCustomEvent en = false → wrapperFires en ev = true) := by
  constructor
  · intro h
    rw [wrapperFires, if_pos h]
    cases hev : ev.eventName with
    | none => simp
    | some n => simp [beq_iff_eq]
  · intro h
    rw [wrapperFires, if_neg (by simp [h])]

/-- Witness for C3: the `"login:request"` wrapper fires on a matching
embedded name, ignores a different or absent one, and a native `"click"`
wrapper always fires. -/
theorem wrapper_custom_native_invocation_witness :
    wrapperFires "login:request" rvMatch = true ∧
    wrapperFires "login:request" rvOther = false ∧
    wrapperFires "login:request" rvNone = false ∧
    wrapperFires "click" rvNone = true := by
  refine ⟨((wrapper_custom_native_invocation "login:request" rvMatch).1 (by decide)).mpr rfl,
    ?_, ?_, (wrapper_custom_native_invocation "click" rvNone).2 (by decide)⟩
  · have h := (wrapper_custom_native_invocation "login:request" rvOther).1 (by decide)
    cases hb : wrapperFires "login:request" rvOther
    · rfl
    · exact absurd (h.mp hb) (by decide)
  · have h := (wrapper_custom_native_invocation "login:request" rvNone).1 (by decide)
    cases hb : wrapperFires "login:request" rvNone
    · rfl
    · exact absurd (h.mp hb) (by decide)

/-- C6: `fire` returns `undefined` — dispatching nothing and changing no
state (the embedding is pure; the early return precedes any dispatch) —
exactly when the host has neither `createEvent` nor `createEventObject`;
otherwise it returns the constructed synthetic event, which carries the
embedded `eventName` and a `model` payload equal to the supplied data,
defaulting to the empty object. -/
theorem fire_host_capability_spec (host : Host) (el : Nat) (en : String)
    (data : Option (List (String × String))) (bubbles : Bool) :
    (host.createEvent = false → host.createEventObject = false →
      fire host el en data bubbles = none) ∧
    (host.createEvent = true ∨ host.createEventObject = true →
      ∃ ev, fire host el en data bubbles = some ev ∧
        ev.eventName = en ∧ ev.model = data.getD []) := by
  obtain ⟨ce, ceo, dd, di, de⟩ := host
  constructor
  · intro h1 h2
    subst h1
    subst h2
    rfl
  · intro h
    cases ce with
    | true => exact ⟨_, rfl, rfl, rfl⟩
    | false =>
      cases ceo with
      | true => exact ⟨_, rfl, rfl, rfl⟩
      | false =>
        rcases h with h | h <;> exact absurd h Bool.false_ne_true

/-- Witness for C6: a host with no construction primitive returns nothing;
a modern host returns an event carrying the name and payload. -/
theorem fire_host_capability_spec_witness :
    fire hostNone 3 "login:request" (some payload0) true = none ∧
    Option.map SynthEvent.eventName (fire hostModern 3 "login:request" (some payload0) true) =
      some "login:request" ∧
    Option.map SynthEvent.model (fire hostModern 3 "login:request" (some payload0) true) =
      some payload0 := by
  refine ⟨(fire_host_capability_spec hostNone 3 "login:request" (some payload0) true).1 rfl rfl,
    ?_, ?_⟩ <;>
  · obtain ⟨ev, heq, hn, hm⟩ :=
      (fire_host_capability_spec hostModern 3 "login:request" (some payload0) true).2 (Or.inl rfl)
    rw [heq]
    simp [Option.map_some', hn, hm]

theorem orElseInt_falsy {a : Option Int} (h : a = none ∨ a = some 0) (b : Int) :
    orElseInt a b = b := by
  rcases h with h | h <;> simp [h, orElseInt]

theorem orElseInt_truthy {v : Int} (h : v ≠ 0) (b : Int) : orElseInt (some v) b = v := by
  simp [orElseInt, h]

theorem orElseInt_some (v b : Int) : orElseInt (some v) b = if v = 0 then b else v := rfl

theorem orElseInt_zero_default (a : Option Int) : orElseInt a 0 = a.getD 0 := by
  rcases a with _ | v
  · rfl
  · by_cases h : v = 0 <;> simp [orElseInt, h]

/-- Counterexample to C5 as stated: at the page origin `pageX`/`pageY` are
present and equal to `0`, yet `pointer` does not return them — the JS
`event.pageX || fallback` treats `0` as falsy, so the client-coordinate
fallback (here `(7, 9)`) is returned instead. -/
theorem pointer_pageX_zero_falls_back :
    ptrEdge.pageX = some 0 ∧ ptrEdge.pageY = some 0 ∧
    pointer dFlat ptrEdge = (7, 9) ∧ pointer dFlat ptrEdge ≠ (0, 0) := by
  refine ⟨rfl, rfl, by decide, by decide⟩

/-- C5 (amended): `pointer(event)` returns `{x, y}` equal to the event's
explicit `pageX`/`pageY` whenever those fields are present *and nonzero*
(JS truthiness); when a page coordinate is absent *or zero* it falls back
to the client coordinate plus the document scroll offset (body scroll when
the document element's offset is zero, `0` when the body is missing) minus
the document client offset (`0` when missing). -/
theorem pointer_prefers_truthy_page_coords (d : DocState) (e : PtrEvent) :
    (∀ px, e.pageX = some px → px ≠ 0 → (pointer d e).1 = px) ∧
    (e.pageX = none ∨ e.pageX = some 0 →
      (pointer d e).1 = e.clientX +
        (if d.docScrollLeft = 0 then (if d.bodyPresent then d.bodyScrollLeft else 0)
         else d.docScrollLeft) -
        d.docClientLeft.getD 0) ∧
    (∀ py, e.pageY = some py → py ≠ 0 → (pointer d e).2 = py) ∧
    (e.pageY = none ∨ e.pageY = some 0 →
      (pointer d e).2 = e.clientY +
        (if d.docScrollTop = 0 then (if d.bodyPresent then d.bodyScrollTop else 0)
         else d.docScrollTop) -
        d.docClientTop.getD 0) := by
  refine ⟨?_, ?_, ?_, ?_⟩
  · intro px hpx hne
    show pointerX d e = px
    simp only [pointerX]
    rw [hpx, orElseInt_truthy hne]
  · intro h
    show pointerX d e = _
    simp only [pointerX]
    rw [orElseInt_falsy h, orElseInt_some, orElseInt_zero_default]
  · intro py hpy hne
    show pointerY d e = py
    simp only [pointerY]
    rw [hpy, orElseInt_truthy hne]
  · intro h
    show pointerY d e = _
    simp only [pointerY]
    rw [orElseInt_falsy h, orElseInt_some, orElseInt_zero_default]

/-- Witness for C5 (amended): nonzero page coordinates are returned as-is;
zero page coordinates fall back to the client computation. -/
theorem pointer_prefers_truthy_page_coords_witness :
    pointer dFlat ptrPage = (11, 13) ∧ pointer dFlat ptrEdge = (7, 9) := by
  have h1 := pointer_prefers_truthy_page_coords dFlat ptrPage
  have h2 := pointer_prefers_truthy_page_coords dFlat ptrEdge
  constructor
  · exact Prod.ext (h1.1 11 rfl (by decide)) (h1.2.2.1 13 rfl (by decide))
  · exact Prod.ext ((h2.2.1 (Or.inr rfl)).trans (by decide))
      ((h2.2.2.2 (Or.inr rfl)).trans (by decide))

/-- Counterexample to C9 as stated: a `load` event whose listener sits on
the document (which has no `tagName`) resolves to the bubbled target, not
to `currentTarget` — the quirk correction in `element` requires a truthy
`currentTarget.tagName`. -/
theorem element_load_no_tagname_returns_target :
    evLoadDoc.type = "load" ∧ evLoadDoc.currentTarget = some 0 ∧
    domElement nodes0 evLoadDoc = some 1 ∧ some (1 : Nat) ≠ evLoadDoc.currentTarget := by
  refine ⟨rfl, rfl, by decide, by decide⟩

/-- C9 (amended): for `load`/`error` events and radio-input `click`
events whose `currentTarget` is present and exposes a (nonempty) tag
name, `element(event)` resolves to the listener's attachment point
(`currentTarget`) rather than the bubbled target; for every event whose
`currentTarget` is absent or lacks a tag name — e.g. document or window —
the bubbled target is kept; and for every event whose resolved node is a
text node, `element` returns that node's parent instead (every
non-text-node resolution is returned as-is). -/
theorem element_quirk_resolution_spec (nodes : Nat → DomNode) (ev : DomEvent) :
    (∀ ct tag, ev.currentTarget = some ct → (nodes ct).tagName = some tag → tag ≠ "" →
      (ev.type = "load" ∨ ev.type = "error" ∨
        (ev.type = "click" ∧ jsToLower tag = "input" ∧ (nodes ct).inputType = some "radio")) →
      quirkTarget nodes ev = ct ∧
      ((nodes ct).nodeType ≠ 3 → domElement nodes ev = some ct)) ∧
    (ev.currentTarget = none → quirkTarget nodes ev = ev.target) ∧
    (∀ ct, ev.currentTarget = some ct → (nodes ct).tagName = none →
      quirkTarget nodes ev = ev.target) ∧
    (∀ ct, ev.currentTarget = some ct → (nodes ct).tagName = some "" →
      quirkTarget nodes ev = ev.target) ∧
    ((nodes (quirkTarget nodes ev)).nodeType = 3 →
      domElement nodes ev = (nodes (quirkTarget nodes ev)).parentNode) ∧
    ((nodes (quirkTarget nodes ev)).nodeType ≠ 3 →
      domElement nodes ev = some (quirkTarget nodes ev)) := by
  refine ⟨?_, ?_, ?_, ?_, ?_, ?_⟩
  · intro ct tag hct htag hne hq
    have hqt : quirkTarget nodes ev = ct := by
      simp only [quirkTarget, hct, htag]
      rw [if_pos ⟨hne, hq⟩]
    refine ⟨hqt, ?_⟩
    intro h3
    simp only [domElement, hqt]
    rw [if_neg h3]
  · intro h
    simp only [quirkTarget, h]
  · intro ct hct htag
    simp only [quirkTarget, hct, htag]
  · intro ct hct htag
    simp only [quirkTarget, hct, htag]
    rw [if_neg]
    rintro ⟨hne, _⟩
    exact hne rfl
  · intro h3
    simp only [domElement]
    rw [if_pos h3]
  · intro h3
    simp only [domElement]
    rw [if_neg h3]

/-- Witness for C9 (amended): a `load` event whose listener sits on the
image element (which has a tag name) resolves to that element; the same
`load` with the listener on the document (no tag name) keeps the bubbled
target; and a plain click whose bubbled target is a text node resolves to
the text node's parent element. -/
theorem element_quirk_resolution_spec_witness :
    domElement nodes0 evLoadImg = some 1 ∧
    quirkTarget nodes0 evLoadDoc = 1 ∧
    domElement nodes0 evClickText = some 1 := by
  have h1 := element_quirk_resolution_spec nodes0 evLoadImg
  have h2 := element_quirk_resolution_spec nodes0 evLoadDoc
  have h3 := element_quirk_resolution_spec nodes0 evClickText
  refine ⟨?_, ?_, ?_⟩
  · exact (h1.1 1 "IMG" rfl (by decide) (by decide) (Or.inl rfl)).2 (by decide)
  · exact h2.2.2.1 0 rfl (by decide)
  · exact (h3.2.2.2.2.1 (by decide)).trans (by decide)

/-- C8: on key-down, `dispatch` ignores outright the modifier-only codes
16 (Shift), 17 (Ctrl) and 18 (Alt) and any code with no name in the
printable/function-key table; when a name is found, the modifier chain is
composed by checking alt, then ctrl, then shift, appending `alt_`,
`ctrl_`, `shift_` in exactly that fixed order for each active modifier. -/
theorem keydown_dispatch_spec (m : KMap) (e : KeyEvent) (ht : e.type = "keydown") :
    ((e.keyCode = 16 ∨ e.keyCode = 17 ∨ e.keyCode = 18) → dispatch m e = none) ∧
    (PrintableChars e.keyCode = none → dispatch m e = none) ∧
    (∀ name, PrintableChars e.keyCode = some name →
      composedKey e = some ((if e.altKey then "alt_" else "") ++
        (if e.ctrlKey then "ctrl_" else "") ++
        (if e.shiftKey then "shift_" else "") ++ name)) := by
  refine ⟨?_, ?_, ?_⟩
  · intro h
    have hck : composedKey e = none := by
      rcases h with h | h | h <;> simp [composedKey, ht, h]
    simp [dispatch, hck]
  · intro h
    have hck : composedKey e = none := by
      by_cases h16 : e.keyCode = 16 ∨ e.keyCode = 17 ∨ e.keyCode = 18
      · rcases h16 with h1 | h1 | h1 <;> simp [composedKey, ht, h1]
      · simp [composedKey, ht, h16, h]
    simp [dispatch, hck]
  · intro name h
    have h16 : ¬(e.keyCode = 16 ∨ e.keyCode = 17 ∨ e.keyCode = 18) := by
      rintro (h1 | h1 | h1) <;> rw [h1] at h
      · rw [show PrintableChars 16 = none from rfl] at h
        cases h
      · rw [show PrintableChars 17 = none from rfl] at h
        cases h
      · rw [show PrintableChars 18 = none from rfl] at h
        cases h
    have hnn : (PrintableChars e.keyCode).isNone = false := by rw [h]; rfl
    simp [composedKey, ht, h16, h, hnn, modsFor, String.append_assoc]

/-- Witness for C8: key-down of `F1` with ctrl and shift held composes
`"ctrl_shift_f1"`; key-down of the Shift key itself (code 16) dispatches
nothing. -/
theorem keydown_dispatch_spec_witness :
    composedKey eCtrlShiftF1 = some "ctrl_shift_f1" ∧
    dispatch [("shift_l", 9)] eShiftDown = none := by
  have h1 := keydown_dispatch_spec [("shift_l", 9)] eCtrlShiftF1 rfl
  have h2 := keydown_dispatch_spec [("shift_l", 9)] eShiftDown rfl
  exact ⟨(h1.2.2 "f1" (by decide)).trans (by decide), h2.1 (Or.inl rfl)⟩

/-- C4: on key-press, when the derived character differs from its
lowercase form, `dispatch` lowercases the key name and forces a `shift_`
chain before lookup; consequently a key-press producing `L` never invokes
a handler bound only to `l`, and invokes a handler exactly when one is
bound to `shift_l`. -/
theorem keypress_uppercase_forces_shift (m : KMap) (e : KeyEvent)
    (ht : e.type = "keypress") (ha : e.altKey = false) (hc : e.ctrlKey = false)
    (hz : ¬(e.charCode = some 0))
    (hdiff : String.mk [Char.ofNat (derivedCode e)] ≠
      jsToLower (String.mk [Char.ofNat (derivedCode e)])) :
    composedKey e = some ("shift_" ++ jsToLower (String.mk [Char.ofNat (derivedCode e)])) ∧
    (List.lookup ("shift_" ++ jsToLower (String.mk [Char.ofNat (derivedCode e)])) m = none →
      dispatch m e = none) ∧
    (∀ f, List.lookup ("shift_" ++ jsToLower (String.mk [Char.ofNat (derivedCode e)])) m = some f →
      dispatch m e =
        some ("shift_" ++ jsToLower (String.mk [Char.ofNat (derivedCode e)]), f)) := by
  have hne1 : ¬(e.type = "keydown") := by
    rw [ht]
    decide
  have hac : ¬(e.altKey = true ∨ e.ctrlKey = true) := by simp [ha, hc]
  have hck : composedKey e =
      some ("shift_" ++ jsToLower (String.mk [Char.ofNat (derivedCode e)])) := by
    simp only [composedKey]
    rw [if_neg hne1, if_pos ht, if_neg hac, if_neg hz, if_pos hdiff]
  refine ⟨hck, ?_, ?_⟩
  · intro hlk
    simp [dispatch, hck, hlk]
  · intro f hlk
    simp [dispatch, hck, hlk]

/-- Witness for C4: a caps-lock key-press producing `L` does not invoke a
handler bound only to `"l"`, and invokes the handler bound to
`"shift_l"`. -/
theorem keypress_uppercase_forces_shift_witness :
    composedKey eCapsL = some "shift_l" ∧
    dispatch [("l", 1)] eCapsL = none ∧
    dispatch [("shift_l", 9)] eCapsL = some ("shift_l", 9) := by
  have h1 := keypress_uppercase_forces_shift [("l", 1)] eCapsL rfl rfl rfl
    (by decide) (by decide)
  have h2 := keypress_uppercase_forces_shift [("shift_l", 9)] eCapsL rfl rfl rfl
    (by decide) (by decide)
  exact ⟨h1.1.trans (by decide), h1.2.1 (by decide), (h2.2.2 9 (by decide)).trans (by decide)⟩
